import Mathlib

/-!
Verification of the generational search controller of a memetic flowshop
heuristic.  The repository has two variants of the controller:

* `src/src/memetic.py` — the full controller (`memetic_heuristic`,
  `update_population`, `restart_population`, `extract_best_from_population`)
  with statistics history, best-observed tracking, stagnation/convergence
  restarts and a predictive time budget test;
* `src/memetic.py` — an older, simpler loop (`memetic_heuristic`,
  `find_best_ordo_in_list`) with a hard-coded 10 minute budget.

The operator collaborators (crossover, mutation, local search, initial
population generation, the entropy convergence detector and the statistics
collector) are not part of the repository sources; they are modelled as
oracles indexed by the generation number (the standard determinization of
stochastic operators), collected in an `Ops` structure.  Wall-clock time is
modelled by an explicit elapsed value and an oracle giving each generation's
duration; the unbounded `while` loop is modelled with explicit fuel (every
theorem is universally quantified over the fuel).
-/

/-- A candidate schedule (`Ordonnancement`): all the controller uses is its
duration (makespan), a non-negative number; the `id` field lets distinct
schedules share a duration. -/
structure Sched where
  id : Nat
  dur : Nat
deriving DecidableEq, Repr

/-- `duree` method of `Ordonnancement`: the schedule's total duration. -/
def duree (s : Sched) : Nat := s.dur

/-- Minimum of a list of naturals (Python `min` on a non-empty list;
`0` stands for the `ValueError` case of an empty list, which the controller
never reaches). -/
def listMin : List Nat → Nat
  | [] => 0
  | [a] => a
  | a :: b :: t => min a (listMin (b :: t))

/-- Maximum of a list of naturals (Python `max`; `0` on the empty list). -/
def listMax : List Nat → Nat
  | [] => 0
  | [a] => a
  | a :: b :: t => max a (listMax (b :: t))

/-- Python `int()` applied to a float: truncation toward zero. -/
def pyInt (q : ℚ) : ℤ := if 0 ≤ q then Int.floor q else Int.ceil q

/-- Python slice `l[:k]` for an integer `k` (negative `k` counts from the
end). -/
def pySliceTo {α : Type} (l : List α) (k : ℤ) : List α :=
  if 0 ≤ k then l.take k.toNat else l.take ((l.length : ℤ) + k).toNat

/-- Oracles for the external operator collaborators of the
`src/src/memetic.py` controller, indexed by the generation number to model
their stochastic behaviour, together with the wall-clock durations.
`is_convergent` has the precomputed entropy threshold baked in;
`random_pop g k` is `initial_population.random_initial_pop(flowshop, k)` as
sampled at generation `g`; `gen_dur g` is the measured wall-clock duration
of generation `g`; `setup_dur` is the time spent before the loop starts. -/
structure Ops where
  crossover : Nat → List Sched → List Sched
  mutation : Nat → List Sched → List Sched
  local_search : Nat → List Sched → List Sched
  is_convergent : List Sched → Bool
  random_pop : Nat → Nat → List Sched
  initial_pop : List Sched
  gen_dur : Nat → ℚ
  setup_dur : ℚ

/-- The configuration entries of the `parameters` dictionary that the
controller itself reads; the crossover/mutation/local-search tuning values
are only passed through to the operator oracles and are absorbed there. -/
structure Params where
  pop_init_size : Nat
  time_limit : ℚ
  preserved_prop : ℚ
  use_ls : Bool

/-- `update_population` of `src/src/memetic.py`: crossover, then mutation,
then (when `use_ls` is set) local search, each consuming and returning a
population. -/
def update_population (ops : Ops) (p : Params) (g : Nat)
    (population : List Sched) : List Sched :=
  let population := ops.crossover g population
  let population := ops.mutation g population
  if p.use_ls then ops.local_search g population else population

/-- The comparison key of `sorted(population, key=lambda sched: sched.duree())`. -/
def dureeLE (a b : Sched) : Bool := decide (duree a ≤ duree b)

/-- `extract_best_from_population` of `src/src/memetic.py`:
`sorted(population, key=duree)[:preserved_size]` (Python's `sorted` is a
stable ascending merge sort). -/
def extract_best_from_population (population : List Sched)
    (preserved_size : ℤ) : List Sched :=
  pySliceTo (List.mergeSort population dureeLE) preserved_size

/-- `restart_population` of `src/src/memetic.py`:
`preserved_size = int(len(population) * preserved_prop)` elites plus
`len(population) - preserved_size` fresh random individuals. -/
def restart_population (ops : Ops) (g : Nat) (population : List Sched)
    (preserved_prop : ℚ) : List Sched :=
  let preserved_size : ℤ := pyInt ((population.length : ℚ) * preserved_prop)
  let random_size : ℤ := (population.length : ℤ) - preserved_size
  extract_best_from_population population preserved_size ++
    ops.random_pop g random_size.toNat

/-- Modelled from the spec: `population_statistics.population_statistics`
(the StatisticsCollector, whose source is not in the repository) returns the
tuple `(mean duration, min duration, max duration)` over a population
snapshot. -/
def population_statistics (pop : List Sched) : ℚ × Nat × Nat :=
  (((pop.map duree).map (fun d => (d : ℚ))).sum / (pop.length : ℚ),
    listMin (pop.map duree), listMax (pop.map duree))

/-- Python `min(population, key=lambda sched: sched.duree())`: the first
member of least duration (`⟨0, 0⟩` stands for the `ValueError` on an empty
population, never reached by the controller). -/
def min_by_duree (l : List Sched) : Sched :=
  match l with
  | [] => ⟨0, 0⟩
  | h :: t =>
      (h :: t).foldl (fun best x => if duree x < duree best then x else best) h

/-- The controller state of `src/src/memetic.py`'s `memetic_heuristic` loop:
the population, the statistics history `list_statistics`, the best schedule
observed `overall_best_scheduling`, the list `iterations_where_restart` and
the generation counter `index`. -/
structure MemState where
  population : List Sched
  list_statistics : List (ℚ × Nat × Nat)
  overall_best_scheduling : Sched
  iterations_where_restart : List Nat
  index : Nat
deriving DecidableEq

/-- The stagnation test of `src/src/memetic.py` (lines 109-113), evaluated
after the current generation's statistics entry has been appended and with
`index` already incremented: at least 10 statistics entries, the last
recorded restart (if any) at least 10 generations old, and the
minimum-duration components of the most recent 10 entries having equal
minimum and maximum. -/
def stagnation_check (list_statistics : List (ℚ × Nat × Nat))
    (restarts : List Nat) (index : Nat) : Bool :=
  decide (9 < list_statistics.length) &&
  (match restarts.getLast? with
   | none => true
   | some r => decide (index ≥ r + 10)) &&
  (let window :=
    (list_statistics.drop (list_statistics.length - 10)).map (fun st => st.2.1)
   decide (listMin window = listMax window))

/-- One iteration of the `while` loop of `src/src/memetic.py`'s
`memetic_heuristic`: increment `index`, run the operator pipeline, update
the best-observed schedule on strict improvement, append the generation's
statistics, evaluate the stagnation test, and restart the population when
the convergence detector fires or stagnation is flagged. -/
def genStep (ops : Ops) (p : Params) (s : MemState) : MemState :=
  let index := s.index + 1
  let population := update_population ops p index s.population
  let best_sched := min_by_duree population
  let overall_best :=
    if duree s.overall_best_scheduling > duree best_sched then best_sched
    else s.overall_best_scheduling
  let statistics := population_statistics population
  let list_statistics := s.list_statistics ++ [statistics]
  let restart := stagnation_check list_statistics s.iterations_where_restart index
  let do_restart := ops.is_convergent population || restart
  { population :=
      if do_restart then restart_population ops index population p.preserved_prop
      else population
    list_statistics := list_statistics
    overall_best_scheduling := overall_best
    iterations_where_restart :=
      if do_restart then s.iterations_where_restart ++ [index]
      else s.iterations_where_restart
    index := index }

/-- The `while` loop of `src/src/memetic.py` (line 97):
`while time.time() - start_time + iteration_time + 1 < 60 * parameters['time_limit']`.
`elapsed` is `time.time() - start_time`, `iteration_time` the previous
generation's measured duration (0 before the first); the loop is bounded by
explicit fuel. -/
def runLoop (ops : Ops) (p : Params) :
    Nat → ℚ → ℚ → MemState → MemState
  | 0, _, _, s => s
  | Nat.succ fuel, elapsed, iteration_time, s =>
    if elapsed + iteration_time + 1 < 60 * p.time_limit then
      let s2 := genStep ops p s
      runLoop ops p fuel (elapsed + ops.gen_dur s2.index) (ops.gen_dur s2.index) s2
    else s

/-- The state of `src/src/memetic.py`'s `memetic_heuristic` just before the
loop: initial population, its statistics as the single history entry, its
minimum-duration member as best observed, no restarts, `index = 0`. -/
def initState (ops : Ops) : MemState :=
  { population := ops.initial_pop
    list_statistics := [population_statistics ops.initial_pop]
    overall_best_scheduling := min_by_duree ops.initial_pop
    iterations_where_restart := []
    index := 0 }

/-- `memetic_heuristic` of `src/src/memetic.py` (the returned `MemState`
carries the run result: `list_statistics`, `overall_best_scheduling` and
`iterations_where_restart`). -/
def memetic_heuristic (ops : Ops) (p : Params) (fuel : Nat) : MemState :=
  runLoop ops p fuel ops.setup_dur 0 (initState ops)

namespace Old

/-- Oracles for the old variant `src/memetic.py`: the three operator stages,
the initial random population, the initial empty `Ordonnancement` used as
`best_ordo` before the loop, and the wall-clock durations. -/
structure Ops where
  crossing : Nat → List Sched → List Sched
  mutation : Nat → List Sched → List Sched
  local_search : Nat → List Sched → List Sched
  initial_pop : List Sched
  init_best : Sched
  gen_dur : Nat → ℚ
  setup_dur : ℚ

/-- `find_best_ordo_in_list` of `src/memetic.py`: start from the head and
replace the candidate on strictly smaller duration (`⟨0, 0⟩` stands for the
`IndexError` on an empty list). -/
def find_best_ordo_in_list (list_ordo : List Sched) : Sched :=
  match list_ordo with
  | [] => ⟨0, 0⟩
  | h :: t =>
      (h :: t).foldl (fun best ordo => if duree ordo < duree best then ordo else best) h

/-- The loop state of `src/memetic.py`'s `memetic_heuristic` (the index is
added to drive the oracles; the Python loop keeps no counter). -/
structure St where
  population : List Sched
  best_ordo : Sched
  index : Nat
deriving DecidableEq

/-- One iteration of the old loop: crossing, mutation, local search, then
`best_ordo = find_best_ordo_in_list(population)` — an unconditional
overwrite, not guarded by an improvement test. -/
def step (ops : Ops) (s : St) : St :=
  let index := s.index + 1
  let population := ops.local_search index (ops.mutation index (ops.crossing index s.population))
  { population := population
    best_ordo := find_best_ordo_in_list population
    index := index }

/-- The `while` loop of `src/memetic.py` (line 29):
`while time.time() - start_time + iteration_time < 60 * 10` — no `+ 1`
safety margin and a hard-coded 10 minute limit. -/
def runLoop (ops : Ops) : Nat → ℚ → ℚ → St → St
  | 0, _, _, s => s
  | Nat.succ fuel, elapsed, iteration_time, s =>
    if elapsed + iteration_time < 60 * 10 then
      let s2 := step ops s
      runLoop ops fuel (elapsed + ops.gen_dur s2.index) (ops.gen_dur s2.index) s2
    else s

/-- `memetic_heuristic` of `src/memetic.py`. -/
def memetic_heuristic (ops : Ops) (fuel : Nat) : St :=
  runLoop ops fuel ops.setup_dur 0
    { population := ops.initial_pop, best_ordo := ops.init_best, index := 0 }

end Old

/-- The minimum-duration components of the most recent (at most) 10
statistics entries, as inspected by the stagnation test. -/
def recent_min_window (list_statistics : List (ℚ × Nat × Nat)) : List Nat :=
  (list_statistics.drop (list_statistics.length - 10)).map (fun st => st.2.1)

/-! Concrete oracle instantiations used to exercise the controller on
explicit inputs. -/

/-- Old-variant oracles whose operator pipeline produces a duration-5
schedule in generation 1 and a duration-7 schedule afterwards. -/
def exC1Ops : Old.Ops :=
  { crossing := fun g _ => if g = 1 then [⟨1, 5⟩] else [⟨2, 7⟩]
    mutation := fun _ pop => pop
    local_search := fun _ pop => pop
    initial_pop := [⟨0, 9⟩]
    init_best := ⟨0, 0⟩
    gen_dur := fun _ => 1
    setup_dur := 0 }

/-- Old-variant oracles where generation 1 takes 1 second and every later
generation takes 299 seconds. -/
def exC4Ops : Old.Ops :=
  { crossing := fun _ pop => pop
    mutation := fun _ pop => pop
    local_search := fun _ pop => pop
    initial_pop := [⟨0, 5⟩]
    init_best := ⟨0, 0⟩
    gen_dur := fun g => if g = 1 then 1 else 299
    setup_dur := 0 }

/-- Oracles whose convergence detector fires on every population. -/
def exC6Ops : Ops :=
  { crossover := fun _ pop => pop
    mutation := fun _ pop => pop
    local_search := fun _ pop => pop
    is_convergent := fun _ => true
    random_pop := fun _ k => (List.range k).map (fun j => ⟨10 + j, 4⟩)
    initial_pop := [⟨0, 5⟩]
    gen_dur := fun _ => 1
    setup_dur := 0 }

/-- Configuration with a one minute budget and no preserved elites. -/
def exC6Params : Params :=
  { pop_init_size := 1, time_limit := 1, preserved_prop := 0, use_ls := false }

/-- Inert oracles: identity operators, never-firing convergence detector,
duration-4 random individuals. -/
def exC8Ops : Ops :=
  { crossover := fun _ pop => pop
    mutation := fun _ pop => pop
    local_search := fun _ pop => pop
    is_convergent := fun _ => false
    random_pop := fun _ k => (List.range k).map (fun j => ⟨10 + j, 4⟩)
    initial_pop := [⟨0, 5⟩]
    gen_dur := fun _ => 1
    setup_dur := 0 }

/-- An out-of-range configuration: a negative time limit. -/
def exC8Params : Params :=
  { pop_init_size := 1, time_limit := -1, preserved_prop := 1/2, use_ls := false }

/-- Oracles whose operator pipeline always returns the one-element
population of duration 1. -/
def trivOps : Ops :=
  { crossover := fun _ _ => [⟨0, 1⟩]
    mutation := fun _ pop => pop
    local_search := fun _ pop => pop
    is_convergent := fun _ => false
    random_pop := fun _ k => (List.range k).map (fun j => ⟨100 + j, 2⟩)
    initial_pop := [⟨0, 3⟩]
    gen_dur := fun _ => 1
    setup_dur := 0 }

/-- A well-formed configuration for a size-1 population. -/
def trivParams : Params :=
  { pop_init_size := 1, time_limit := 1, preserved_prop := 1/2, use_ls := false }

/-! Derived views of one generation step, naming the population produced by
the operator pipeline and the restart condition of that generation. -/

/-- The population after the operator pipeline of generation `s.index + 1`. -/
def updatedPop (ops : Ops) (p : Params) (s : MemState) : List Sched :=
  update_population ops p (s.index + 1) s.population

/-- The restart condition of generation `s.index + 1`: the convergence
detector fires on the updated population, or the stagnation test fires on
the history extended with that population's statistics entry. -/
def restartCond (ops : Ops) (p : Params) (s : MemState) : Bool :=
  ops.is_convergent (updatedPop ops p s) ||
    stagnation_check
      (s.list_statistics ++ [population_statistics (updatedPop ops p s)])
      s.iterations_where_restart (s.index + 1)

theorem genStep_index (ops : Ops) (p : Params) (s : MemState) :
    (genStep ops p s).index = s.index + 1 := rfl

theorem genStep_list_statistics (ops : Ops) (p : Params) (s : MemState) :
    (genStep ops p s).list_statistics =
      s.list_statistics ++ [population_statistics (updatedPop ops p s)] := rfl

theorem genStep_overall (ops : Ops) (p : Params) (s : MemState) :
    (genStep ops p s).overall_best_scheduling =
      if duree s.overall_best_scheduling > duree (min_by_duree (updatedPop ops p s))
      then min_by_duree (updatedPop ops p s)
      else s.overall_best_scheduling := rfl

theorem genStep_population (ops : Ops) (p : Params) (s : MemState) :
    (genStep ops p s).population =
      if restartCond ops p s
      then restart_population ops (s.index + 1) (updatedPop ops p s) p.preserved_prop
      else updatedPop ops p s := rfl

theorem genStep_restarts (ops : Ops) (p : Params) (s : MemState) :
    (genStep ops p s).iterations_where_restart =
      if restartCond ops p s
      then s.iterations_where_restart ++ [s.index + 1]
      else s.iterations_where_restart := rfl

/-- Any predicate preserved by `genStep` is preserved by the whole loop. -/
theorem runLoop_inv (ops : Ops) (p : Params) (P : MemState → Prop)
    (hstep : ∀ s, P s → P (genStep ops p s)) :
    ∀ (fuel : Nat) (e i : ℚ) (s : MemState), P s → P (runLoop ops p fuel e i s) := by
  intro fuel
  induction fuel with
  | zero => intro e i s h; exact h
  | succ n ih =>
    intro e i s h
    rw [runLoop]
    split
    · exact ih _ _ (genStep ops p s) (hstep s h)
    · exact h

/-- When the predictive time test fails, the loop returns its state
unchanged, whatever the fuel. -/
theorem runLoop_stop (ops : Ops) (p : Params) (fuel : Nat) (e i : ℚ)
    (s : MemState) (h : ¬ e + i + 1 < 60 * p.time_limit) :
    runLoop ops p fuel e i s = s := by
  cases fuel with
  | zero => rfl
  | succ n => rw [runLoop, if_neg h]

/-- When the old variant's time test fails, its loop returns its state
unchanged, whatever the fuel. -/
theorem old_runLoop_stop (ops : Old.Ops) (fuel : Nat) (e i : ℚ)
    (s : Old.St) (h : ¬ e + i < 60 * 10) :
    Old.runLoop ops fuel e i s = s := by
  cases fuel with
  | zero => rfl
  | succ n => rw [Old.runLoop, if_neg h]

/-! Facts about `listMin`, `listMax`, `min_by_duree` and the sorted list. -/

theorem listMin_le (l : List Nat) : ∀ x ∈ l, listMin l ≤ x := by
  induction l with
  | nil => simp
  | cons a t ih =>
    cases t with
    | nil => simp [listMin]
    | cons b t2 =>
      intro x hx
      rcases List.mem_cons.mp hx with h | h
      · subst h
        exact min_le_left _ _
      · calc listMin (a :: b :: t2) = min a (listMin (b :: t2)) := rfl
          _ ≤ listMin (b :: t2) := min_le_right _ _
          _ ≤ x := ih x h

theorem le_listMax (l : List Nat) : ∀ x ∈ l, x ≤ listMax l := by
  induction l with
  | nil => simp
  | cons a t ih =>
    cases t with
    | nil => simp [listMax]
    | cons b t2 =>
      intro x hx
      rcases List.mem_cons.mp hx with h | h
      · subst h
        exact le_max_left _ _
      · calc x ≤ listMax (b :: t2) := ih x h
          _ ≤ max a (listMax (b :: t2)) := le_max_right _ _
          _ = listMax (a :: b :: t2) := rfl

theorem listMin_mem (l : List Nat) (h : l ≠ []) : listMin l ∈ l := by
  induction l with
  | nil => exact absurd rfl h
  | cons a t ih =>
    cases t with
    | nil => simp [listMin]
    | cons b t2 =>
      have hm : listMin (a :: b :: t2) = min a (listMin (b :: t2)) := rfl
      rcases min_choice a (listMin (b :: t2)) with hc | hc
      · rw [hm, hc]; exact List.mem_cons_self _ _
      · rw [hm, hc]
        exact List.mem_cons_of_mem _ (ih (by simp))

theorem listMax_mem (l : List Nat) (h : l ≠ []) : listMax l ∈ l := by
  induction l with
  | nil => exact absurd rfl h
  | cons a t ih =>
    cases t with
    | nil => simp [listMax]
    | cons b t2 =>
      have hm : listMax (a :: b :: t2) = max a (listMax (b :: t2)) := rfl
      rcases max_choice a (listMax (b :: t2)) with hc | hc
      · rw [hm, hc]; exact List.mem_cons_self _ _
      · rw [hm, hc]
        exact List.mem_cons_of_mem _ (ih (by simp))

/-- On a non-empty list, `min = max` says exactly that the list is
constant. -/
theorem listMin_eq_listMax_iff (l : List Nat) (h : l ≠ []) :
    listMin l = listMax l ↔ ∀ x ∈ l, ∀ y ∈ l, x = y := by
  constructor
  · intro he x hx y hy
    have hx1 := le_listMax l x hx
    have hx2 := listMin_le l x hx
    have hy1 := le_listMax l y hy
    have hy2 := listMin_le l y hy
    omega
  · intro hc
    have hmin := listMin_mem l h
    have hmax := listMax_mem l h
    exact hc _ hmin _ hmax

/-! Facts about the first-minimum fold used by `min_by_duree` and
`find_best_ordo_in_list`. -/

theorem foldl_best_mem (l : List Sched) :
    ∀ b : Sched,
      l.foldl (fun best x => if duree x < duree best then x else best) b ∈ b :: l := by
  induction l with
  | nil => intro b; simp
  | cons a t ih =>
    intro b
    have h := ih (if duree a < duree b then a else b)
    simp only [List.foldl_cons]
    rcases List.mem_cons.mp h with h1 | h1
    · rw [h1]
      split
      · exact List.mem_cons_of_mem _ (List.mem_cons_self _ _)
      · exact List.mem_cons_self _ _
    · exact List.mem_cons_of_mem _ (List.mem_cons_of_mem _ h1)

theorem foldl_best_le (l : List Sched) :
    ∀ b : Sched,
      duree (l.foldl (fun best x => if duree x < duree best then x else best) b) ≤ duree b ∧
      ∀ x ∈ l,
        duree (l.foldl (fun best x => if duree x < duree best then x else best) b) ≤ duree x := by
  induction l with
  | nil => intro b; exact ⟨le_refl _, by simp⟩
  | cons a t ih =>
    intro b
    have h := ih (if duree a < duree b then a else b)
    simp only [List.foldl_cons]
    have hfb : duree (if duree a < duree b then a else b) ≤ duree b := by
      split <;> omega
    have hfa : duree (if duree a < duree b then a else b) ≤ duree a := by
      split <;> omega
    refine ⟨le_trans h.1 hfb, ?_⟩
    intro x hx
    rcases List.mem_cons.mp hx with h1 | h1
    · rw [h1]; exact le_trans h.1 hfa
    · exact h.2 x h1

theorem min_by_duree_mem (l : List Sched) (h : l ≠ []) : min_by_duree l ∈ l := by
  cases l with
  | nil => exact absurd rfl h
  | cons a t =>
    have hm := foldl_best_mem (a :: t) a
    rcases List.mem_cons.mp hm with h1 | h1
    · rw [min_by_duree, h1]; exact List.mem_cons_self _ _
    · exact h1

theorem min_by_duree_le (l : List Sched) : ∀ x ∈ l, duree (min_by_duree l) ≤ duree x := by
  cases l with
  | nil => simp
  | cons a t =>
    intro x hx
    exact (foldl_best_le (a :: t) a).2 x hx

/-! Facts about the sorted population. -/

theorem dureeLE_trans : ∀ a b c : Sched, dureeLE a b = true → dureeLE b c = true →
    dureeLE a c = true := by
  intro a b c hab hbc
  simp only [dureeLE, decide_eq_true_eq] at *
  omega

theorem dureeLE_total : ∀ a b : Sched, (dureeLE a b || dureeLE b a) = true := by
  intro a b
  simp only [dureeLE, Bool.or_eq_true, decide_eq_true_eq]
  omega

theorem mergeSort_pairwise (l : List Sched) :
    (List.mergeSort l dureeLE).Pairwise (fun a b => duree a ≤ duree b) := by
  have h := @List.sorted_mergeSort Sched dureeLE dureeLE_trans dureeLE_total l
  exact h.imp (fun hab => by simpa [dureeLE] using hab)

theorem mergeSort_take_le_drop (l : List Sched) (k : Nat) :
    ∀ x ∈ (List.mergeSort l dureeLE).take k,
      ∀ y ∈ (List.mergeSort l dureeLE).drop k, duree x ≤ duree y := by
  have hp := mergeSort_pairwise l
  rw [← List.take_append_drop k (List.mergeSort l dureeLE)] at hp
  exact (List.pairwise_append.mp hp).2.2

theorem mergeSort_head_least (l : List Sched) (m : Sched) (rest : List Sched)
    (h : List.mergeSort l dureeLE = m :: rest) :
    m ∈ l ∧ ∀ y ∈ l, duree m ≤ duree y := by
  constructor
  · have : m ∈ List.mergeSort l dureeLE := by rw [h]; exact List.mem_cons_self _ _
    exact List.mem_mergeSort.mp this
  · intro y hy
    have hy2 : y ∈ List.mergeSort l dureeLE := List.mem_mergeSort.mpr hy
    rw [h] at hy2
    rcases List.mem_cons.mp hy2 with h1 | h1
    · rw [h1]
    · have hp := mergeSort_pairwise l
      rw [h] at hp
      exact (List.pairwise_cons.mp hp).1 y h1

/-! Size facts about the restart. -/

theorem pyInt_bounds (N : Nat) (p : ℚ) (hp0 : 0 ≤ p) (hp1 : p ≤ 1) :
    0 ≤ pyInt ((N : ℚ) * p) ∧ pyInt ((N : ℚ) * p) ≤ (N : ℤ) := by
  have hnn : (0 : ℚ) ≤ (N : ℚ) * p := mul_nonneg (Nat.cast_nonneg N) hp0
  rw [pyInt, if_pos hnn]
  constructor
  · exact Int.floor_nonneg.mpr hnn
  · have hle : (N : ℚ) * p ≤ (N : ℚ) :=
      mul_le_of_le_one_right (Nat.cast_nonneg N) hp1
    calc Int.floor ((N : ℚ) * p) ≤ Int.floor ((N : ℚ)) := Int.floor_le_floor hle
      _ = (N : ℤ) := Int.floor_natCast N

/-- Under the InitialPopulationGenerator contract (`random_pop` returns
exactly the requested number of individuals) and `preserved_prop ∈ [0,1]`,
a restart decomposes into the sorted elite prefix plus the random refill,
in those exact sizes. -/
theorem restart_population_decomp (ops : Ops) (g : Nat) (pop : List Sched)
    (p : ℚ) (hp0 : 0 ≤ p) (hp1 : p ≤ 1) :
    restart_population ops g pop p =
      (List.mergeSort pop dureeLE).take (pyInt ((pop.length : ℚ) * p)).toNat ++
        ops.random_pop g (pop.length - (pyInt ((pop.length : ℚ) * p)).toNat) := by
  obtain ⟨h0, hN⟩ := pyInt_bounds pop.length p hp0 hp1
  rw [restart_population, extract_best_from_population, pySliceTo, if_pos h0]
  congr 1
  congr 1
  omega

theorem restart_population_length (ops : Ops) (g : Nat) (pop : List Sched)
    (p : ℚ) (hp0 : 0 ≤ p) (hp1 : p ≤ 1)
    (hr : ∀ k, (ops.random_pop g k).length = k) :
    (restart_population ops g pop p).length = pop.length := by
  obtain ⟨h0, hN⟩ := pyInt_bounds pop.length p hp0 hp1
  rw [restart_population_decomp ops g pop p hp0 hp1]
  rw [List.length_append, List.length_take, List.length_mergeSort, hr]
  omega

/-! Equivalence between the source stagnation test and its specification
reading. -/

theorem le_getLast_of_sorted (l : List Nat) (hs : l.Pairwise (· ≤ ·)) :
    ∀ x ∈ l, ∀ r, l.getLast? = some r → x ≤ r := by
  induction l with
  | nil => simp
  | cons a t ih =>
    intro x hx r hr
    cases t with
    | nil =>
      simp only [List.getLast?_singleton, Option.some.injEq] at hr
      rcases List.mem_singleton.mp hx with h1
      omega
    | cons b t2 =>
      rw [List.getLast?_cons_cons] at hr
      have hs2 := (List.pairwise_cons.mp hs).2
      have ha := (List.pairwise_cons.mp hs).1
      rcases List.mem_cons.mp hx with h1 | h1
      · subst h1
        have hrm : r ∈ b :: t2 := List.mem_of_getLast?_eq_some hr
        exact ha r hrm
      · exact ih hs2 x h1 r hr

/-- The stagnation test of the source is, whenever the recorded restart
indices are nondecreasing (as they are in any run), exactly the
specification's reading: at least 10 statistics entries, no restart of any
kind within the last 10 generations, and a constant minimum-duration
component over the most recent 10 entries. -/
theorem stagnation_check_iff (ls : List (ℚ × Nat × Nat)) (restarts : List Nat)
    (index : Nat) (hs : restarts.Pairwise (· ≤ ·)) :
    stagnation_check ls restarts index = true ↔
      (10 ≤ ls.length ∧ (∀ r ∈ restarts, r + 10 ≤ index) ∧
        ∀ x ∈ recent_min_window ls, ∀ y ∈ recent_min_window ls, x = y) := by
  simp only [stagnation_check, Bool.and_eq_true, decide_eq_true_eq]
  constructor
  · rintro ⟨⟨h1, h2⟩, h3⟩
    refine ⟨by omega, ?_, ?_⟩
    · intro r hr
      cases hL : restarts.getLast? with
      | none =>
        rw [List.getLast?_eq_none_iff] at hL
        subst hL
        simp at hr
      | some m =>
        rw [hL] at h2
        simp only [decide_eq_true_eq] at h2
        have := le_getLast_of_sorted restarts hs r hr m hL
        omega
    · have hwne : recent_min_window ls ≠ [] := by
        unfold recent_min_window
        simp only [ne_eq, List.map_eq_nil_iff, List.drop_eq_nil_iff]
        omega
      exact (listMin_eq_listMax_iff _ hwne).mp h3
  · rintro ⟨h1, h2, h3⟩
    refine ⟨⟨by omega, ?_⟩, ?_⟩
    · cases hL : restarts.getLast? with
      | none => rfl
      | some m =>
        simp only [decide_eq_true_eq]
        exact h2 m (List.mem_of_getLast?_eq_some hL)
    · have hwne : recent_min_window ls ≠ [] := by
        unfold recent_min_window
        simp only [ne_eq, List.map_eq_nil_iff, List.drop_eq_nil_iff]
        omega
      exact (listMin_eq_listMax_iff _ hwne).mpr h3

/-! Growth of the statistics history along the loop. -/

theorem runLoop_stats_growth (ops : Ops) (p : Params) (fuel : Nat) (e i : ℚ)
    (s : MemState) :
    (∃ u, (runLoop ops p fuel e i s).list_statistics = s.list_statistics ++ u) ∧
    (runLoop ops p fuel e i s).list_statistics.length + s.index =
      s.list_statistics.length + (runLoop ops p fuel e i s).index := by
  refine runLoop_inv ops p
    (fun t => (∃ u, t.list_statistics = s.list_statistics ++ u) ∧
      t.list_statistics.length + s.index = s.list_statistics.length + t.index)
    ?_ fuel e i s ⟨⟨[], by simp⟩, by omega⟩
  rintro t ⟨⟨u, hu⟩, hl⟩
  constructor
  · exact ⟨u ++ [population_statistics (updatedPop ops p t)], by
      rw [genStep_list_statistics, hu, List.append_assoc]⟩
  · rw [genStep_list_statistics, genStep_index, List.length_append]
    simp only [List.length_singleton]
    omega

/-- The best-observed schedule never increases in duration across one
generation step. -/
theorem genStep_overall_le (ops : Ops) (p : Params) (s : MemState) :
    duree (genStep ops p s).overall_best_scheduling ≤
      duree s.overall_best_scheduling := by
  rw [genStep_overall]
  split <;> omega

/-- C10: the statistics entry appended for a generation is computed from the
population produced by the operator pipeline, before any restart replaces
it; when the restart condition holds, the stored population becomes the
restarted one, which is therefore first reflected only in the following
generation's entry. -/
theorem C10_stats_from_pre_restart_population (ops : Ops) (p : Params) (s : MemState) :
    (genStep ops p s).list_statistics =
      s.list_statistics ++ [population_statistics (updatedPop ops p s)] ∧
    (genStep ops p s).population =
      (if restartCond ops p s
       then restart_population ops (s.index + 1) (updatedPop ops p s) p.preserved_prop
       else updatedPop ops p s) :=
  ⟨genStep_list_statistics ops p s, genStep_population ops p s⟩

/-- C7: the statistics history starts with exactly the initial population's
entry before any generation runs, each generation step appends exactly one
entry, along the loop the history only ever grows by appending (so no
already-written entry changes), its length always exceeds the number of
completed generations by exactly one, and so the history returned by
`memetic_heuristic` has one entry per completed generation plus the initial
entry. -/
theorem C7_statistics_append_only (ops : Ops) (p : Params) (fuel : Nat)
    (e i : ℚ) (s t : MemState) :
    (initState ops).list_statistics = [population_statistics ops.initial_pop] ∧
    (initState ops).index = 0 ∧
    (genStep ops p t).list_statistics =
      t.list_statistics ++ [population_statistics (updatedPop ops p t)] ∧
    (∃ u, (runLoop ops p fuel e i s).list_statistics = s.list_statistics ++ u) ∧
    (runLoop ops p fuel e i s).list_statistics.length + s.index =
      s.list_statistics.length + (runLoop ops p fuel e i s).index ∧
    (memetic_heuristic ops p fuel).list_statistics.length =
      (memetic_heuristic ops p fuel).index + 1 := by
  refine ⟨rfl, rfl, genStep_list_statistics ops p t,
    (runLoop_stats_growth ops p fuel e i s).1,
    (runLoop_stats_growth ops p fuel e i s).2, ?_⟩
  have h := (runLoop_stats_growth ops p fuel ops.setup_dur 0 (initState ops)).2
  have h0 : (initState ops).index = 0 := rfl
  have h1 : (initState ops).list_statistics.length = 1 := rfl
  rw [h0, h1] at h
  rw [memetic_heuristic]
  omega

/-- C1 counterexample: in `src/memetic.py`, `best_ordo` is overwritten with
the current population's best every iteration without any comparison, so
the best observed regresses: in this run the time tests all pass, the best
after generation 1 has duration 5, and the best after generation 2 of the
same run has duration 7. -/
theorem C1_old_variant_best_regresses :
    duree (Old.memetic_heuristic exC1Ops 1).best_ordo = 5 ∧
    duree (Old.memetic_heuristic exC1Ops 2).best_ordo = 7 := by
  constructor <;>
    norm_num [Old.memetic_heuristic, Old.runLoop, Old.step,
      Old.find_best_ordo_in_list, exC1Ops, duree]

/-- C1 amended: in `src/src/memetic.py`, the duration of
`overall_best_scheduling` never increases along the loop and the recorded
best changes only to a strictly lower-duration member of the current
generation's population; in `src/memetic.py`, by contrast, `best_ordo` is
rebound to `find_best_ordo_in_list` of the current population at every
step, with no comparison against the previous best (so it can regress, as
the counterexample shows). -/
theorem C1_monotone_best_amended (ops : Ops) (p : Params) (fuel : Nat)
    (e i : ℚ) (s t : MemState) (oops : Old.Ops) (u : Old.St)
    (hne : ∀ g pop, update_population ops p g pop ≠ []) :
    duree (runLoop ops p fuel e i s).overall_best_scheduling ≤
      duree s.overall_best_scheduling ∧
    ((genStep ops p t).overall_best_scheduling ≠ t.overall_best_scheduling →
      duree (genStep ops p t).overall_best_scheduling <
        duree t.overall_best_scheduling ∧
      (genStep ops p t).overall_best_scheduling ∈ updatedPop ops p t) ∧
    (Old.step oops u).best_ordo =
      Old.find_best_ordo_in_list (Old.step oops u).population := by
  refine ⟨?_, ?_, rfl⟩
  · exact runLoop_inv ops p
      (fun w => duree w.overall_best_scheduling ≤ duree s.overall_best_scheduling)
      (fun w hw => le_trans (genStep_overall_le ops p w) hw) fuel e i s (le_refl _)
  · intro hneq
    rw [genStep_overall] at hneq ⊢
    by_cases hlt : duree t.overall_best_scheduling >
        duree (min_by_duree (updatedPop ops p t))
    · rw [if_pos hlt]
      exact ⟨hlt, min_by_duree_mem _ (hne (t.index + 1) t.population)⟩
    · rw [if_neg hlt] at hneq
      exact absurd rfl hneq

/-- C1 witness. -/
theorem C1_monotone_best_witness :
    duree (runLoop trivOps trivParams 2 0 0 (initState trivOps)).overall_best_scheduling ≤
      duree (initState trivOps).overall_best_scheduling ∧
    ((genStep trivOps trivParams (initState trivOps)).overall_best_scheduling ≠
        (initState trivOps).overall_best_scheduling →
      duree (genStep trivOps trivParams (initState trivOps)).overall_best_scheduling <
        duree (initState trivOps).overall_best_scheduling ∧
      (genStep trivOps trivParams (initState trivOps)).overall_best_scheduling ∈
        updatedPop trivOps trivParams (initState trivOps)) ∧
    (Old.step exC1Ops ⟨[⟨0, 9⟩], ⟨0, 0⟩, 0⟩).best_ordo =
      Old.find_best_ordo_in_list (Old.step exC1Ops ⟨[⟨0, 9⟩], ⟨0, 0⟩, 0⟩).population :=
  C1_monotone_best_amended trivOps trivParams 2 0 0 (initState trivOps)
    (initState trivOps) exC1Ops ⟨[⟨0, 9⟩], ⟨0, 0⟩, 0⟩
    (by intro g pop; simp [update_population, trivOps, trivParams])

/-- C4 counterexample: in `src/memetic.py` the loop condition is
`elapsed + iteration_time < 60 * 10`, with no `+ 1` margin and a hard-coded
10 minute limit. In this run generation 1 takes 1 s and generation 2 takes
299 s, so before generation 3 the claimed predictive test
`elapsed + last_duration + 1 < time_limit` fails (1 + 299 + 299 + 1 = 600),
yet the old variant still starts and completes generation 3. -/
theorem C4_old_variant_starts_generation_after_test_fails :
    (Old.memetic_heuristic exC4Ops 3).index = 3 ∧
    ¬ (exC4Ops.gen_dur 1 + exC4Ops.gen_dur 2) + exC4Ops.gen_dur 2 + 1 < 60 * 10 := by
  constructor
  · norm_num [Old.memetic_heuristic, Old.runLoop, Old.step, exC4Ops]
  · norm_num [exC4Ops]

/-- C4 amended: each variant stops as soon as its own pre-generation test
fails and returns the accumulated state, starting no further generation —
but the tests differ: `src/src/memetic.py` requires
`elapsed + last_duration + 1 < 60 * time_limit` (the claimed predictive
test), while `src/memetic.py` requires `elapsed + last_duration < 600`,
with no `+ 1` safety margin and a fixed 10 minute budget. -/
theorem C4_budget_test_amended (ops : Ops) (p : Params) (oops : Old.Ops)
    (fuel fuel2 : Nat) (e i e2 i2 : ℚ) (s : MemState) (u : Old.St)
    (h : ¬ e + i + 1 < 60 * p.time_limit) (h2 : ¬ e2 + i2 < 60 * 10) :
    runLoop ops p fuel e i s = s ∧ Old.runLoop oops fuel2 e2 i2 u = u :=
  ⟨runLoop_stop ops p fuel e i s h, old_runLoop_stop oops fuel2 e2 i2 u h2⟩

/-- C4 witness. -/
theorem C4_budget_test_witness :
    runLoop trivOps trivParams 5 600 0 (initState trivOps) = initState trivOps ∧
    Old.runLoop exC4Ops 5 700 0 ⟨[⟨0, 5⟩], ⟨0, 0⟩, 0⟩ = ⟨[⟨0, 5⟩], ⟨0, 0⟩, 0⟩ :=
  C4_budget_test_amended trivOps trivParams exC4Ops 5 5 600 0 700 0
    (initState trivOps) ⟨[⟨0, 5⟩], ⟨0, 0⟩, 0⟩
    (by norm_num [trivParams]) (by norm_num)

/-- C3: whenever the recorded restart indices are nondecreasing (as in any
run), the stagnation test fires exactly when at least 10 statistics entries
exist, no restart of any kind was recorded within the last 10 generations,
and the minimum-duration component of the most recent 10 entries is
constant; in particular a history of 10 identical min-values 500 with no
recorded restart triggers at generation 10. -/
theorem C3_stagnation_trigger (ls : List (ℚ × Nat × Nat)) (restarts : List Nat)
    (index : Nat) (hs : restarts.Pairwise (· ≤ ·)) :
    (stagnation_check ls restarts index = true ↔
      (10 ≤ ls.length ∧ (∀ r ∈ restarts, r + 10 ≤ index) ∧
        ∀ x ∈ recent_min_window ls, ∀ y ∈ recent_min_window ls, x = y)) ∧
    stagnation_check (List.replicate 10 ((500 : ℚ), 500, 500)) [] 10 = true :=
  ⟨stagnation_check_iff ls restarts index hs, by decide⟩

/-- C3 witness. -/
theorem C3_stagnation_trigger_witness :
    (stagnation_check (List.replicate 10 ((500 : ℚ), 500, 500)) [3] 13 = true ↔
      (10 ≤ (List.replicate 10 ((500 : ℚ), 500, 500)).length ∧
        (∀ r ∈ [3], r + 10 ≤ 13) ∧
        ∀ x ∈ recent_min_window (List.replicate 10 ((500 : ℚ), 500, 500)),
          ∀ y ∈ recent_min_window (List.replicate 10 ((500 : ℚ), 500, 500)), x = y)) ∧
    stagnation_check (List.replicate 10 ((500 : ℚ), 500, 500)) [] 10 = true :=
  C3_stagnation_trigger (List.replicate 10 ((500 : ℚ), 500, 500)) [3] 13 (by decide)

/-- C6: the stagnation branch is rate-limited — whenever the stagnation
test fires at generation `index` of a run (restart indices nondecreasing),
every previously recorded restart, in particular any earlier
stagnation-triggered one, lies at least 10 generations back, so two
stagnation-triggered restarts are never less than 10 apart; the convergence
branch has no limiter — with a detector that always reports convergence,
the run restarts at every single generation (indices 1, 2, 3). -/
theorem C6_stagnation_rate_limit (ls : List (ℚ × Nat × Nat))
    (restarts : List Nat) (index : Nat) (hs : restarts.Pairwise (· ≤ ·))
    (hfire : stagnation_check ls restarts index = true) :
    (∀ r ∈ restarts, r + 10 ≤ index) ∧
    (memetic_heuristic exC6Ops exC6Params 3).iterations_where_restart = [1, 2, 3] := by
  refine ⟨((stagnation_check_iff ls restarts index hs).mp hfire).2.1, ?_⟩
  norm_num [memetic_heuristic, runLoop, genStep, initState, update_population,
    restart_population, extract_best_from_population, pySliceTo, pyInt,
    population_statistics, stagnation_check, min_by_duree, listMin, listMax,
    exC6Ops, exC6Params, duree, List.range_succ]

/-- C6 witness. -/
theorem C6_stagnation_rate_limit_witness :
    (∀ r ∈ [3], r + 10 ≤ 13) ∧
    (memetic_heuristic exC6Ops exC6Params 3).iterations_where_restart = [1, 2, 3] :=
  C6_stagnation_rate_limit (List.replicate 10 ((500 : ℚ), 500, 500)) [3] 13
    (by decide) (by decide)

/-- C8 counterexample: the controller performs no parameter validation and
raises no ConfigurationError: invoked with an out-of-range configuration
(time limit `-1`), `memetic_heuristic` does not fail — it returns a normal
run result equal to the initial state, with the initial statistics entry,
the initial best and no restarts. -/
theorem C8_no_configuration_error :
    exC8Params.time_limit < 0 ∧
    memetic_heuristic exC8Ops exC8Params 5 = initState exC8Ops ∧
    (memetic_heuristic exC8Ops exC8Params 5).list_statistics =
      [population_statistics exC8Ops.initial_pop] := by
  refine ⟨by norm_num [exC8Params], ?_, ?_⟩ <;>
    norm_num [memetic_heuristic, runLoop, exC8Params, exC8Ops, initState]

/-- C8 amended: no validation exists; a run whose time limit is not
positive simply never enters the loop and returns the initial state as an
ordinary result (out-of-range values such as a `preserved_prop` outside
`[0,1]` are likewise consumed as-is, never rejected). -/
theorem C8_invalid_config_returns_normally (ops : Ops) (p : Params)
    (fuel : Nat) (hsetup : 0 ≤ ops.setup_dur) (h : p.time_limit ≤ 0) :
    memetic_heuristic ops p fuel = initState ops := by
  rw [memetic_heuristic]
  apply runLoop_stop
  intro hlt
  have h60 : 60 * p.time_limit ≤ 0 := by nlinarith
  linarith

/-- C8 witness. -/
theorem C8_invalid_config_returns_normally_witness :
    memetic_heuristic exC8Ops exC8Params 3 = initState exC8Ops :=
  C8_invalid_config_returns_normally exC8Ops exC8Params 3
    (by norm_num [exC8Ops]) (by norm_num [exC8Params])

/-- C9 counterexample: with `preserved_prop = 0` (which lies in `[0,1]`) on
the non-empty population `[⟨0,5⟩]`, `restart_population` preserves
`int(1 * 0) = 0` members: the result consists solely of the fresh random
individual and carries over no member of the input — in particular its
lowest-duration member `⟨0,5⟩` is discarded. -/
theorem C9_preserves_nothing_at_zero_prop :
    ([(⟨0, 5⟩ : Sched)] ≠ ([] : List Sched)) ∧
    restart_population exC8Ops 1 [⟨0, 5⟩] 0 = [⟨10, 4⟩] ∧
    (⟨0, 5⟩ : Sched) ∉ restart_population exC8Ops 1 [⟨0, 5⟩] 0 := by
  refine ⟨by simp, ?_, ?_⟩ <;>
    norm_num [restart_population, extract_best_from_population, pySliceTo,
      pyInt, exC8Ops, List.range_succ]

/-- C9 amended: whenever the preserved share is non-degenerate — that is,
`floor(|population| * preserved_prop) ≥ 1`, with `preserved_prop ∈ [0,1]` —
the restarted population carries over a lowest-duration member of the
input, so the best-known structure survives; when the floor is 0 (e.g.
`preserved_prop = 0`, or a small population with a small share) the entire
population is replaced, as the counterexample shows. -/
theorem C9_keeps_best_when_floor_positive (ops : Ops) (g : Nat)
    (pop : List Sched) (p : ℚ) (hp0 : 0 ≤ p) (hp1 : p ≤ 1)
    (h1 : 1 ≤ Int.floor ((pop.length : ℚ) * p)) :
    ∃ m, m ∈ restart_population ops g pop p ∧ m ∈ pop ∧
      ∀ y ∈ pop, duree m ≤ duree y := by
  have hnn : (0 : ℚ) ≤ (pop.length : ℚ) * p := mul_nonneg (Nat.cast_nonneg _) hp0
  have hps : pyInt ((pop.length : ℚ) * p) = Int.floor ((pop.length : ℚ) * p) := by
    rw [pyInt, if_pos hnn]
  obtain ⟨h0, hN⟩ := pyInt_bounds pop.length p hp0 hp1
  have hlen : 1 ≤ pop.length := by rw [hps] at hN h0; omega
  have hms : List.mergeSort pop dureeLE ≠ [] := by
    intro hnil
    have hlms := @List.length_mergeSort Sched dureeLE pop
    rw [hnil] at hlms
    simp at hlms
    omega
  cases hms2 : List.mergeSort pop dureeLE with
  | nil => exact absurd hms2 hms
  | cons m rest =>
    obtain ⟨hmem, hle⟩ := mergeSort_head_least pop m rest hms2
    refine ⟨m, ?_, hmem, hle⟩
    rw [restart_population_decomp ops g pop p hp0 hp1, hms2]
    apply List.mem_append_left
    have hk : 1 ≤ (pyInt ((pop.length : ℚ) * p)).toNat := by rw [hps]; omega
    cases hk2 : (pyInt ((pop.length : ℚ) * p)).toNat with
    | zero => omega
    | succ j => rw [List.take_succ_cons]; exact List.mem_cons_self _ _

/-- C9 witness. -/
theorem C9_keeps_best_when_floor_positive_witness :
    ∃ m, m ∈ restart_population exC8Ops 1 [⟨0, 5⟩, ⟨1, 3⟩] (1/2) ∧
      m ∈ [(⟨0, 5⟩ : Sched), ⟨1, 3⟩] ∧
      ∀ y ∈ [(⟨0, 5⟩ : Sched), ⟨1, 3⟩], duree m ≤ duree y :=
  C9_keeps_best_when_floor_positive exC8Ops 1 [⟨0, 5⟩, ⟨1, 3⟩] (1/2)
    (by norm_num) (by norm_num) (by norm_num)

/-- C2: under the generator contract (`random_pop` returns exactly the
requested number of individuals) and `preserved_prop = p ∈ [0,1]`, a
restart returns exactly `floor(p * N)` members forming the
ascending-by-duration sorted prefix of the input (so every preserved member
has duration at most that of every non-preserved one), concatenated with
exactly `N - floor(p * N)` freshly generated random individuals, for a
total size of `N`. -/
theorem C2_restart_composition (ops : Ops) (g : Nat) (pop : List Sched)
    (p : ℚ) (hp0 : 0 ≤ p) (hp1 : p ≤ 1)
    (hr : ∀ k, (ops.random_pop g k).length = k) :
    ∃ pre rand, restart_population ops g pop p = pre ++ rand ∧
      (pre.length : ℤ) = Int.floor ((pop.length : ℚ) * p) ∧
      pre.Pairwise (fun a b => duree a ≤ duree b) ∧
      List.Subperm pre pop ∧
      (∀ x ∈ pre, ∀ y ∈ (List.mergeSort pop dureeLE).drop pre.length,
        duree x ≤ duree y) ∧
      rand = ops.random_pop g (pop.length - pre.length) ∧
      rand.length = pop.length - pre.length ∧
      (restart_population ops g pop p).length = pop.length := by
  obtain ⟨h0, hN⟩ := pyInt_bounds pop.length p hp0 hp1
  have hnn : (0 : ℚ) ≤ (pop.length : ℚ) * p := mul_nonneg (Nat.cast_nonneg _) hp0
  have hps : pyInt ((pop.length : ℚ) * p) = Int.floor ((pop.length : ℚ) * p) := by
    rw [pyInt, if_pos hnn]
  have hlentake :
      ((List.mergeSort pop dureeLE).take (pyInt ((pop.length : ℚ) * p)).toNat).length =
        (pyInt ((pop.length : ℚ) * p)).toNat := by
    rw [List.length_take, List.length_mergeSort]
    omega
  refine ⟨(List.mergeSort pop dureeLE).take (pyInt ((pop.length : ℚ) * p)).toNat,
    ops.random_pop g (pop.length - (pyInt ((pop.length : ℚ) * p)).toNat),
    restart_population_decomp ops g pop p hp0 hp1, ?_, ?_, ?_, ?_, ?_, ?_, ?_⟩
  · rw [hlentake, Int.toNat_of_nonneg h0, hps]
  · exact (mergeSort_pairwise pop).sublist (List.take_sublist _ _)
  · exact ((List.take_sublist _ _).subperm).trans (List.mergeSort_perm pop dureeLE).subperm
  · intro x hx y hy
    rw [hlentake] at hy
    exact mergeSort_take_le_drop pop _ x hx y hy
  · rw [hlentake]
  · rw [hr, hlentake]
  · exact restart_population_length ops g pop p hp0 hp1 hr

/-- C2 witness. -/
theorem C2_restart_composition_witness :
    ∃ pre rand,
      restart_population trivOps 1 [⟨0, 5⟩, ⟨1, 3⟩, ⟨2, 4⟩] (1/2) = pre ++ rand ∧
      (pre.length : ℤ) =
        Int.floor ((([(⟨0, 5⟩ : Sched), ⟨1, 3⟩, ⟨2, 4⟩].length : Nat) : ℚ) * (1/2)) ∧
      pre.Pairwise (fun a b => duree a ≤ duree b) ∧
      List.Subperm pre [⟨0, 5⟩, ⟨1, 3⟩, ⟨2, 4⟩] ∧
      (∀ x ∈ pre,
        ∀ y ∈ (List.mergeSort [⟨0, 5⟩, ⟨1, 3⟩, ⟨2, 4⟩] dureeLE).drop pre.length,
        duree x ≤ duree y) ∧
      rand = trivOps.random_pop 1 ([(⟨0, 5⟩ : Sched), ⟨1, 3⟩, ⟨2, 4⟩].length - pre.length) ∧
      rand.length = [(⟨0, 5⟩ : Sched), ⟨1, 3⟩, ⟨2, 4⟩].length - pre.length ∧
      (restart_population trivOps 1 [⟨0, 5⟩, ⟨1, 3⟩, ⟨2, 4⟩] (1/2)).length =
        [(⟨0, 5⟩ : Sched), ⟨1, 3⟩, ⟨2, 4⟩].length :=
  C2_restart_composition trivOps 1 [⟨0, 5⟩, ⟨1, 3⟩, ⟨2, 4⟩] (1/2)
    (by norm_num) (by norm_num) (by intro k; simp [trivOps])

/-- C5: assuming the collaborator contracts — the operator pipeline
preserves the configured population size, the random generator returns the
requested count — and `preserved_prop ∈ [0,1]` with an initial population
of the configured size, the population has size `pop_init_size` before and
after every generation step (hence before and after each
`update_population` call), a restart preserves the population size, and
the population held by `memetic_heuristic` at exit has size
`pop_init_size`. -/
theorem C5_population_size_invariant (ops : Ops) (p : Params) (fuel g : Nat)
    (pop : List Sched) (s : MemState)
    (hp0 : 0 ≤ p.preserved_prop) (hp1 : p.preserved_prop ≤ 1)
    (hr : ∀ g2 k, (ops.random_pop g2 k).length = k)
    (hu : ∀ g2 pop2, pop2.length = p.pop_init_size →
      (update_population ops p g2 pop2).length = p.pop_init_size)
    (hinit : ops.initial_pop.length = p.pop_init_size) :
    (restart_population ops g pop p.preserved_prop).length = pop.length ∧
    (s.population.length = p.pop_init_size →
      (genStep ops p s).population.length = p.pop_init_size) ∧
    (memetic_heuristic ops p fuel).population.length = p.pop_init_size := by
  have hstep : ∀ w : MemState, w.population.length = p.pop_init_size →
      (genStep ops p w).population.length = p.pop_init_size := by
    intro w hw
    rw [genStep_population]
    split
    · rw [restart_population_length ops (w.index + 1) _ _ hp0 hp1 (hr _)]
      exact hu _ _ hw
    · exact hu _ _ hw
  refine ⟨restart_population_length ops g pop _ hp0 hp1 (hr g), hstep s, ?_⟩
  rw [memetic_heuristic]
  exact runLoop_inv ops p (fun w => w.population.length = p.pop_init_size)
    hstep fuel ops.setup_dur 0 (initState ops) hinit

/-- C5 witness. -/
theorem C5_population_size_invariant_witness :
    (restart_population trivOps 1 [⟨0, 7⟩] trivParams.preserved_prop).length =
      [(⟨0, 7⟩ : Sched)].length ∧
    ((initState trivOps).population.length = trivParams.pop_init_size →
      (genStep trivOps trivParams (initState trivOps)).population.length =
        trivParams.pop_init_size) ∧
    (memetic_heuristic trivOps trivParams 2).population.length =
      trivParams.pop_init_size :=
  C5_population_size_invariant trivOps trivParams 2 1 [⟨0, 7⟩] (initState trivOps)
    (by norm_num [trivParams]) (by norm_num [trivParams])
    (by intro g2 k; simp [trivOps])
    (by intro g2 pop2 h; simp [update_population, trivOps, trivParams])
    (by simp [trivOps, trivParams])
